import Mathlib

/-!
Shallow embedding of `src/events/events.go` (package `events`): an in-process
event bus with a bounded history buffer, a subscriber registry, a fanout loop
with a per-subscriber grace period, a replay operation and a filter predicate.
-/

namespace Events

/-- Capacity of the history buffer (`const eventsLimit = 64` in events.go). -/
def eventsLimit : Nat := 64

/-- An event record (`jsonmessage.JSONMessage` as used by events.go:
fields `Status`, `ID`, `From`, `Time`). -/
structure JSONMessage where
  Status : String
  ID : String
  From : String
  Time : Int
  deriving DecidableEq, Repr

/-- One step of `Events.log` on the history buffer (events.go:170-180):
if the buffer is at capacity (`len(e.events) == cap(e.events)`, with capacity
fixed at `eventsLimit` by `New`), the oldest record is discarded
(`copy(e.events, e.events[1:])`) and the new record is written at the end;
otherwise the record is appended. -/
def logRecord (buf : List JSONMessage) (jm : JSONMessage) : List JSONMessage :=
  if buf.length = eventsLimit then buf.drop 1 ++ [jm] else buf ++ [jm]

/-- Publishing a whole sequence of records on a buffer, oldest first. -/
def logAll (buf : List JSONMessage) (recs : List JSONMessage) : List JSONMessage :=
  recs.foldl logRecord buf

lemma logAll_nil (buf : List JSONMessage) : logAll buf [] = buf := rfl

lemma logAll_cons (buf : List JSONMessage) (r : JSONMessage) (rs : List JSONMessage) :
    logAll buf (r :: rs) = logAll (logRecord buf r) rs := rfl

lemma length_logRecord_of_le (buf : List JSONMessage) (jm : JSONMessage)
    (h : buf.length ≤ eventsLimit) : (logRecord buf jm).length ≤ eventsLimit := by
  unfold logRecord eventsLimit at *
  split
  · simp_all
  · simp_all; omega

/-- Closed form for the ring buffer: starting from a buffer not above capacity,
folding in `recs` yields the suffix of `buf ++ recs` keeping the last
`eventsLimit` elements. -/
lemma logAll_eq_drop (buf : List JSONMessage) (recs : List JSONMessage)
    (h : buf.length ≤ eventsLimit) :
    logAll buf recs = (buf ++ recs).drop (buf.length + recs.length - eventsLimit) := by
  unfold eventsLimit at *
  induction recs generalizing buf with
  | nil =>
    have hz : buf.length - 64 = 0 := by omega
    simp [logAll, hz]
  | cons r rs ih =>
    rw [logAll_cons]
    unfold logRecord eventsLimit
    by_cases hfull : buf.length = 64
    · have hpos : 1 ≤ buf.length := by omega
      rw [if_pos hfull]
      have hlen : (buf.drop 1 ++ [r]).length = 64 := by
        simp [List.length_drop]; omega
      rw [ih _ (le_of_eq hlen)]
      have hsplit : buf.drop 1 ++ [r] ++ rs = (buf ++ r :: rs).drop 1 := by
        rw [List.drop_append_of_le_length hpos]
        simp
      rw [List.append_assoc] at hsplit ⊢
      rw [hsplit, List.drop_drop]
      congr 1
      rw [hlen]
      simp only [List.length_append, List.length_cons]
      omega
    · rw [if_neg hfull]
      have hle : (buf ++ [r]).length ≤ 64 := by
        simp only [List.length_append, List.length_cons, List.length_nil]; omega
      rw [ih _ hle]
      rw [List.append_assoc]
      congr 1
      simp only [List.length_append, List.length_cons, List.length_nil,
        List.singleton_append]
      omega

/-- The substring of `s` standing before the first ':' — what Go's
`strings.Split(s, ":")[0]` yields in `writeEvent` (events.go:120). -/
def beforeSep (s : String) : String := String.mk (s.data.takeWhile (fun c => c ≠ ':'))

/-- Go's `strings.Contains(field, ":")` (events.go:119). -/
def containsSep (s : String) : Bool := s.data.any (fun c => c = ':')

/-- The `isFiltered` closure of `writeEvent` (events.go:111-127): the field is
filtered out iff the filter list is non-empty and no accepted value `v`
satisfies `v == field`, or — when the field contains the ':' separator — `v`
equals the part of the field before the first ':'. -/
def isFiltered (field : String) (filter : List String) : Bool :=
  if filter.length = 0 then false
  else !(filter.any (fun v =>
    v == field || (containsSep field && beforeSep field == v)))

/-- The three filter dimensions `writeEvent` reads from its `filters.Args`
argument: the value lists at keys "event", "image" and "container". -/
structure FilterArgs where
  event : List String
  image : List String
  container : List String
  deriving DecidableEq, Repr

/-- The suppression test of `writeEvent` (events.go:134-137): the record is
dropped iff at least one of the three dimension checks filters it. -/
def shouldSuppress (ev : JSONMessage) (f : FilterArgs) : Bool :=
  isFiltered ev.Status f.event || isFiltered ev.From f.image ||
    isFiltered ev.ID f.container

/-- `l` starts with `p`. -/
def startsWith (l p : List Char) : Bool := l.take p.length == p

/-- Modelled from the spec (§4.2), for comparison with the code: exact-equality
matching on a dimension, with an empty filter passing everything. -/
def isFilteredExact (field : String) (filter : List String) : Bool :=
  if filter.length = 0 then false else !(filter.any (fun v => v == field))

/-- Modelled from the spec (§4.2), for comparison with the code: the source
dimension matches `v` when the field equals `v` or starts with `v` immediately
followed by the ':' separator. -/
def isFilteredSpecSource (field : String) (filter : List String) : Bool :=
  if filter.length = 0 then false
  else !(filter.any (fun v =>
    v == field || startsWith field.data (v.data ++ [':'])))

/-- Modelled from the spec (§4.2), for comparison with the code: the claimed
suppression predicate, where the prefix rule applies to the source dimension
only and status / subject-identifier match by exact equality alone. -/
def shouldSuppressSpec (ev : JSONMessage) (f : FilterArgs) : Bool :=
  isFilteredExact ev.Status f.event || isFilteredSpecSource ev.From f.image ||
    isFilteredExact ev.ID f.container

/-- A record field matches one accepted filter value, as the loop body of
`isFiltered` tests it (events.go:115-125): exact equality, or — when the field
contains the ':' separator — equality of the field's segment before the first
':' with the value. -/
def Matches (field v : String) : Prop :=
  field = v ∨ (containsSep field = true ∧ beforeSep field = v)

/-- The time-window test of `writeCurrent` (events.go:152):
`event.Time >= since && (event.Time <= until || until == 0)`. -/
def inWindow (since untl : Int) (ev : JSONMessage) : Bool :=
  since ≤ ev.Time && (ev.Time ≤ untl || untl == 0)

/-- The replay loop of `Events.writeCurrent` (events.go:149-161): walks the
history buffer in insertion order and hands every record inside the
[since, until] window to `writeEvent`; the records emitted are those the
filter does not suppress (the serializer and the output sink are assumed to
succeed here; their failure modes are modelled by `writeEventEmit`). -/
def writeCurrentEmits (since untl : Int) (f : FilterArgs) :
    List JSONMessage → List JSONMessage
  | [] => []
  | ev :: rest =>
    if inWindow since untl ev then
      (if shouldSuppress ev f then [] else [ev]) ++ writeCurrentEmits since untl f rest
    else writeCurrentEmits since untl f rest

/-- `Events.writeCurrent` as an operation on the bus: it holds only a read
lock, so it returns the emitted records together with the buffer exactly as
the traversal leaves it. -/
def writeCurrent (since untl : Int) (f : FilterArgs)
    (events : List JSONMessage) : List JSONMessage × List JSONMessage :=
  (writeCurrentEmits since untl f events, events)

/-- A listener channel (`type listener chan<- *jsonmessage.JSONMessage`);
`unsubscribe` compares channels by identity, so we model a channel as its
identity. -/
abbrev Listener := Nat

/-- `Events.subscribe` (events.go:192-196): appends the listener to the
registry. -/
def subscribe (subs : List Listener) (l : Listener) : List Listener :=
  subs ++ [l]

/-- `Events.subscribersCount` (events.go:163-168). -/
def subscribersCount (subs : List Listener) : Nat := subs.length

/-- What a call to `Events.unsubscribe` produces: the registry afterwards, the
returned boolean, and the channels the call closed. -/
structure UnsubResult where
  remaining : List Listener
  found : Bool
  closed : List Listener
  deriving DecidableEq, Repr

/-- `Events.unsubscribe` (events.go:202-214): scans the registry in order; at
the first entry equal to `l` it closes the channel, removes that entry and
returns true; when the scan finds nothing it returns false and closes
nothing. -/
def unsubscribe : List Listener → Listener → UnsubResult
  | [], _ => ⟨[], false, []⟩
  | s :: rest, l =>
    if s = l then ⟨rest, true, [l]⟩
    else
      let r := unsubscribe rest l
      ⟨s :: r.remaining, r.found, r.closed⟩

/-- The fanout grace period of `Events.log`: `100 * time.Millisecond`
(events.go:186), in milliseconds. -/
def gracePeriodMs : Nat := 100

/-- Behavior of one subscriber during a fanout: `some t` means its receive
becomes ready `t` milliseconds after the offer starts; `none` means it never
receives. -/
abbrev SubBehavior := Option Nat

/-- Time in milliseconds the `select` of events.go:184-187 blocks the
publisher on one subscriber: the handoff happens when the receiver is ready
strictly before the grace period elapses, otherwise the `time.After` case
fires at the grace period. -/
def offerTime (b : SubBehavior) : Nat :=
  match b with
  | none => gracePeriodMs
  | some t => min t gracePeriodMs

/-- Whether the `select` of events.go:184-187 delivers the record to the
subscriber. -/
def offerDelivered (b : SubBehavior) : Bool :=
  match b with
  | none => false
  | some t => t < gracePeriodMs

/-- The fanout loop of `Events.log` (events.go:181-188): offers the new record
to each subscriber in turn; yields the per-subscriber delivery outcomes in
registry order and the total time the publisher spent. -/
def fanout : List SubBehavior → List Bool × Nat
  | [] => ([], 0)
  | b :: rest =>
    let r := fanout rest
    (offerDelivered b :: r.1, offerTime b + r.2)

/-- The emission step of `writeEvent` (events.go:139-146), with the JSON
serializer and the output sink abstracted: `marshal` returns `none` on a
serialization error, `write` is `job.Stdout.Write` and may fail with an error
of type `ε`. The result is what `writeEvent` returns, carrying whether the
record's bytes reached the sink. -/
def writeEventEmit {β ε : Type} (marshal : JSONMessage → Option β)
    (write : β → Except ε Unit) (ev : JSONMessage) (f : FilterArgs) :
    Except ε Bool :=
  if shouldSuppress ev f then Except.ok false
  else
    match marshal ev with
    | none => Except.ok false
    | some b =>
      match write b with
      | Except.error e => Except.error e
      | Except.ok _ => Except.ok true

/-- Outcome of one `Events.Get` session, as seen by the caller and the bus:
the value returned to the caller, the subscriber registry after the handler's
cleanup, and the frames written to the output sink (the initial empty frame
is `none`, emitted records are `some`). -/
structure SessionOutcome (ε : Type) where
  result : Except ε Unit
  subsAfter : List Listener
  written : List (Option JSONMessage)

/-- `Events.Get` (events.go:49-92) with the replay and live loop abstracted
into `body`: parsing the "filters" argument happens before any session state
is created, so a parse failure returns that error with the registry untouched
and nothing written; otherwise the fresh listener `l` is subscribed, the
initial empty frame goes out, the body runs, and the deferred `unsubscribe`
removes the listener on every exit path. -/
def getSession {ε : Type} (parsed : Except ε FilterArgs) (subs : List Listener)
    (l : Listener)
    (body : FilterArgs → Except ε Unit × List (Option JSONMessage)) :
    SessionOutcome ε :=
  match parsed with
  | Except.error e => ⟨Except.error e, subs, []⟩
  | Except.ok f =>
    let r := body f
    ⟨r.1, (unsubscribe (subscribe subs l) l).remaining, none :: r.2⟩

/-- `Events.Log` (events.go:94-101): with an argument count other than 3 it
returns a usage error and spawns nothing; with exactly 3 arguments it returns
success immediately and spawns `e.log(args[0], args[1], args[2])` to run
asynchronously ("not waiting for receivers"). The bus state `st` (history
buffer and registry) is whatever the bus holds at call time; `Log` itself
never touches it, so it appears unchanged in the result. -/
def LogJob (jobName : String) (args : List String)
    (st : List JSONMessage × List Listener) :
    Except String Unit × (List JSONMessage × List Listener) ×
      Option (String × String × String) :=
  if args.length ≠ 3 then
    (Except.error ("usage: " ++ jobName ++ " ACTION ID FROM"), st, none)
  else
    (Except.ok (), st, some (args.getD 0 "", args.getD 1 "", args.getD 2 ""))

/-- `GetContainerId` (events.go:216-231), with the engine's
`container_inspect` job and the JSON decode of its output abstracted as
`resolve`: a failing inspection yields the empty string, otherwise the
decoded canonical identifier. -/
def GetContainerId (resolve : String → Option String) (name : String) :
    String :=
  match resolve name with
  | none => ""
  | some cid => cid

/-- The resolution loop at the top of `writeEvent` (events.go:130-132): every
container filter value is replaced in place by its resolved canonical
identifier. -/
def resolveContainerFilters (resolve : String → Option String)
    (f : FilterArgs) : FilterArgs :=
  { f with container := f.container.map (GetContainerId resolve) }

lemma isFiltered_nil (field : String) : isFiltered field [] = false := rfl

lemma shouldSuppress_empty (ev : JSONMessage) :
    shouldSuppress ev ⟨[], [], []⟩ = false := rfl

lemma isFiltered_eq_false_iff (field : String) (fl : List String) :
    isFiltered field fl = false ↔ fl = [] ∨ ∃ v ∈ fl, Matches field v := by
  cases fl with
  | nil => simp [isFiltered]
  | cons a as =>
    simp only [isFiltered, Matches, List.length_cons]
    rw [if_neg (by omega)]
    simp only [Bool.not_eq_false', List.any_eq_true, Bool.or_eq_true,
      Bool.and_eq_true, beq_iff_eq]
    constructor
    · rintro ⟨v, hv, hp⟩
      refine Or.inr ⟨v, hv, ?_⟩
      rcases hp with h1 | ⟨h2, h3⟩
      · exact Or.inl h1.symm
      · exact Or.inr ⟨h2, h3⟩
    · rintro (hfl | ⟨v, hv, hp⟩)
      · exact absurd hfl (by simp)
      · refine ⟨v, hv, ?_⟩
        rcases hp with h1 | ⟨h2, h3⟩
        · exact Or.inl h1.symm
        · exact Or.inr ⟨h2, h3⟩

lemma isFiltered_eq_true_iff (field : String) (fl : List String) :
    isFiltered field fl = true ↔ fl ≠ [] ∧ ∀ v ∈ fl, ¬ Matches field v := by
  have h := isFiltered_eq_false_iff field fl
  constructor
  · intro ht
    have hc : ¬ (fl = [] ∨ ∃ v ∈ fl, Matches field v) := by
      intro hor
      rw [← h] at hor
      simp [ht] at hor
    push_neg at hc
    exact hc
  · rintro ⟨h1, h2⟩
    by_contra hc
    have hf : isFiltered field fl = false := by
      cases hb : isFiltered field fl
      · rfl
      · exact absurd hb hc
    rcases h.mp hf with h3 | ⟨v, hv, hm⟩
    · exact h1 h3
    · exact h2 v hv hm

lemma unsubscribe_not_mem (subs : List Listener) (l : Listener)
    (h : l ∉ subs) : unsubscribe subs l = ⟨subs, false, []⟩ := by
  induction subs with
  | nil => rfl
  | cons s rest ih =>
    have hs : s ≠ l := by rintro rfl; exact h (List.mem_cons_self _ _)
    have hrest : l ∉ rest := fun hm => h (List.mem_cons_of_mem s hm)
    simp [unsubscribe, hs, ih hrest]

lemma unsubscribe_mem (subs : List Listener) (l : Listener) (h : l ∈ subs) :
    (unsubscribe subs l).found = true ∧ (unsubscribe subs l).closed = [l] ∧
    (unsubscribe subs l).remaining.length + 1 = subs.length ∧
    (unsubscribe subs l).remaining.count l + 1 = subs.count l := by
  induction subs with
  | nil => cases h
  | cons s rest ih =>
    by_cases hs : s = l
    · subst hs
      simp [unsubscribe, List.count_cons_self]
    · have hrest : l ∈ rest := by
        rcases List.mem_cons.mp h with h1 | h2
        · exact absurd h1.symm hs
        · exact h2
      obtain ⟨g1, g2, g3, g4⟩ := ih hrest
      have hls : l ≠ s := fun hc => hs hc.symm
      simp only [unsubscribe, if_neg hs]
      refine ⟨g1, g2, ?_, ?_⟩
      · simpa using g3
      · simpa [List.count_cons_of_ne hls] using g4

lemma unsubscribe_append_fresh (subs : List Listener) (l : Listener)
    (h : l ∉ subs) : unsubscribe (subs ++ [l]) l = ⟨subs, true, [l]⟩ := by
  induction subs with
  | nil => simp [unsubscribe]
  | cons s rest ih =>
    have hs : s ≠ l := by rintro rfl; exact h (List.mem_cons_self _ _)
    have hrest : l ∉ rest := fun hm => h (List.mem_cons_of_mem s hm)
    simp [unsubscribe, hs, ih hrest]

lemma writeCurrentEmits_eq_filter (since untl : Int) (f : FilterArgs)
    (events : List JSONMessage) :
    writeCurrentEmits since untl f events =
      events.filter (fun ev => inWindow since untl ev && !shouldSuppress ev f) := by
  induction events with
  | nil => rfl
  | cons ev rest ih =>
    rw [List.filter_cons]
    by_cases hw : inWindow since untl ev
    · by_cases hs : shouldSuppress ev f
      · simp [writeCurrentEmits, hw, hs, ih]
      · simp [writeCurrentEmits, hw, hs, ih]
    · simp [writeCurrentEmits, hw, ih]

lemma offerTime_le (b : SubBehavior) : offerTime b ≤ gracePeriodMs := by
  cases b with
  | none => exact le_refl _
  | some t => exact min_le_right t gracePeriodMs

/-- C1: for every sequence of publishes of length n on a freshly constructed
bus, if n ≤ 64 the history buffer afterwards holds exactly those n records in
insertion order; if n > 64 it holds exactly the last 64 records in their
original relative order (oldest evicted first); and its length never exceeds
64 at any intermediate point. -/
theorem log_history_ring (recs : List JSONMessage) :
    (recs.length ≤ eventsLimit → logAll [] recs = recs) ∧
    (eventsLimit < recs.length →
      logAll [] recs = recs.drop (recs.length - eventsLimit) ∧
      (logAll [] recs).length = eventsLimit) ∧
    (∀ k : Nat, (logAll [] (recs.take k)).length ≤ eventsLimit) := by
  have hbase : ∀ rs : List JSONMessage,
      logAll [] rs = rs.drop (rs.length - eventsLimit) := by
    intro rs
    have h := logAll_eq_drop [] rs (by simp [eventsLimit])
    simpa using h
  refine ⟨?_, ?_, ?_⟩
  · intro h
    rw [hbase]
    have hz : recs.length - eventsLimit = 0 := by omega
    simp [hz]
  · intro h
    refine ⟨hbase recs, ?_⟩
    rw [hbase, List.length_drop]
    omega
  · intro k
    rw [hbase, List.length_drop]
    omega

/-- Witness for C1 at a concrete two-element publish sequence. -/
theorem log_history_ring_witness :
    logAll [] [⟨"create", "c1", "img", 1⟩, ⟨"start", "c1", "img", 2⟩] =
      [⟨"create", "c1", "img", 1⟩, ⟨"start", "c1", "img", 2⟩] :=
  (log_history_ring _).1 (by decide)

/-- C2: the replay operation emits exactly the stored records whose timestamp
t satisfies since ≤ t and (t ≤ until or until = 0), in insertion order,
without mutating the buffer; when until ≠ 0 and until < since the result is
empty and no error is raised. -/
theorem writeCurrent_window (events : List JSONMessage) (since untl : Int)
    (f : FilterArgs) :
    (writeCurrent since untl ⟨[], [], []⟩ events).1 =
      events.filter (inWindow since untl) ∧
    List.Sublist (writeCurrent since untl f events).1 events ∧
    (writeCurrent since untl f events).2 = events ∧
    (untl ≠ 0 → untl < since → (writeCurrent since untl f events).1 = []) := by
  refine ⟨?_, ?_, rfl, ?_⟩
  · show writeCurrentEmits since untl ⟨[], [], []⟩ events = _
    rw [writeCurrentEmits_eq_filter]
    simp [shouldSuppress_empty]
  · show List.Sublist (writeCurrentEmits since untl f events) events
    rw [writeCurrentEmits_eq_filter]
    exact List.filter_sublist events
  · intro h1 h2
    show writeCurrentEmits since untl f events = []
    rw [writeCurrentEmits_eq_filter]
    rw [List.filter_eq_nil_iff]
    intro ev _
    simp only [inWindow, Bool.and_eq_true, Bool.not_eq_true', decide_eq_true_eq,
      Bool.or_eq_true, beq_iff_eq, not_and]
    rintro ⟨hs, hu | hu⟩ <;> omega

/-- Witness for C2: until = 3 in the past of since = 5 yields an empty
replay. -/
theorem writeCurrent_window_witness :
    (writeCurrent 5 3 ⟨[], [], []⟩ [⟨"a", "b", "c", 4⟩]).1 = [] :=
  (writeCurrent_window [⟨"a", "b", "c", 4⟩] 5 3 ⟨[], [], []⟩).2.2.2
    (by decide) (by decide)

/-- Counterexample to C3: the claim says status matches by exact equality
alone, so a record with status "start:x" should be suppressed by the status
filter {"start"}; the code applies the prefix-before-':' rule to the status
dimension as well and does not suppress it. -/
theorem filter_source_only_cex :
    shouldSuppress ⟨"start:x", "c1", "img", 0⟩ ⟨["start"], [], []⟩ = false ∧
    shouldSuppressSpec ⟨"start:x", "c1", "img", 0⟩ ⟨["start"], [], []⟩ = true :=
  ⟨by decide, by decide⟩

/-- C3 (amended): on every non-empty filter dimension — status, source and
subject identifier alike — the record matches a filter value v iff the field
equals v exactly or the field contains the ':' separator and its segment
before the first ':' equals v; the record passes iff every dimension is empty
or has a matching value. -/
theorem filter_sep_rule_all_dimensions (ev : JSONMessage) (f : FilterArgs) :
    shouldSuppress ev f = false ↔
      (f.event = [] ∨ ∃ v ∈ f.event, Matches ev.Status v) ∧
      (f.image = [] ∨ ∃ v ∈ f.image, Matches ev.From v) ∧
      (f.container = [] ∨ ∃ v ∈ f.container, Matches ev.ID v) := by
  unfold shouldSuppress
  simp only [Bool.or_eq_false_iff]
  rw [isFiltered_eq_false_iff, isFiltered_eq_false_iff, isFiltered_eq_false_iff]
  tauto

/-- Witness for C3 (amended) at a concrete record with empty filters. -/
theorem filter_sep_rule_all_dimensions_witness :
    shouldSuppress ⟨"create", "c1", "img", 0⟩ ⟨[], [], []⟩ = false :=
  (filter_sep_rule_all_dimensions ⟨"create", "c1", "img", 0⟩ ⟨[], [], []⟩).mpr
    ⟨Or.inl rfl, Or.inl rfl, Or.inl rfl⟩

/-- C4: the filter predicate is a conjunction over the three dimensions: the
record is suppressed iff at least one non-empty dimension has no matching
accepted value, an empty dimension always passes, a record with source
"repo:tag" passes the source filter value "repo", and a record with status
"start" is suppressed when the status filter is {"stop"}. -/
theorem filter_conjunction_semantics (ev : JSONMessage) (f : FilterArgs) :
    (shouldSuppress ev f = true ↔
      (f.event ≠ [] ∧ ∀ v ∈ f.event, ¬ Matches ev.Status v) ∨
      (f.image ≠ [] ∧ ∀ v ∈ f.image, ¬ Matches ev.From v) ∨
      (f.container ≠ [] ∧ ∀ v ∈ f.container, ¬ Matches ev.ID v)) ∧
    shouldSuppress ev ⟨[], [], []⟩ = false ∧
    shouldSuppress ⟨"start", "c1", "repo:tag", 0⟩ ⟨[], ["repo"], []⟩ = false ∧
    shouldSuppress ⟨"start", "c1", "img", 0⟩ ⟨["stop"], [], []⟩ = true := by
  refine ⟨?_, shouldSuppress_empty ev, by decide, by decide⟩
  unfold shouldSuppress
  simp only [Bool.or_eq_true]
  rw [isFiltered_eq_true_iff, isFiltered_eq_true_iff, isFiltered_eq_true_iff]
  tauto

/-- Witness for C4 at a concrete suppressed record. -/
theorem filter_conjunction_semantics_witness :
    shouldSuppress ⟨"start", "c1", "img", 0⟩ ⟨["stop"], [], []⟩ = true :=
  (filter_conjunction_semantics ⟨"start", "c1", "img", 0⟩ ⟨[], [], []⟩).2.2.2

/-- C5: unsubscribing a subscriber registered (once, as the API always
registers fresh channels) succeeds: it returns true, closes exactly that
channel and shrinks the registry by one; a second call returns false, closes
nothing and leaves the registry unchanged; unsubscribing a never-registered
channel returns false and leaves the registry untouched. -/
theorem unsubscribe_idempotent (subs : List Listener) (l : Listener)
    (h : subs.count l = 1) :
    (unsubscribe subs l).found = true ∧
    (unsubscribe subs l).closed = [l] ∧
    (unsubscribe subs l).remaining.length + 1 = subs.length ∧
    unsubscribe (unsubscribe subs l).remaining l =
      ⟨(unsubscribe subs l).remaining, false, []⟩ ∧
    (∀ other : List Listener, l ∉ other →
      unsubscribe other l = ⟨other, false, []⟩) := by
  have hmem : l ∈ subs := by
    by_contra hc
    rw [← List.count_eq_zero] at hc
    omega
  obtain ⟨g1, g2, g3, g4⟩ := unsubscribe_mem subs l hmem
  have hnot : l ∉ (unsubscribe subs l).remaining := by
    rw [← List.count_eq_zero]
    omega
  exact ⟨g1, g2, g3, unsubscribe_not_mem _ l hnot,
    fun other ho => unsubscribe_not_mem other l ho⟩

/-- Witness for C5 on the concrete registry [7, 3]. -/
theorem unsubscribe_idempotent_witness :
    (unsubscribe [7, 3] 3).found = true :=
  (unsubscribe_idempotent [7, 3] 3 (by decide)).1

/-- C6: the fanout loop offers the record to each subscriber in turn, spends
at most the 100 ms grace period on each, completes within grace × k total
time for k subscribers, and a subscriber that does not accept within the
grace period simply never receives the record, with no error and no retry. -/
theorem fanout_bounded (subs : List SubBehavior) :
    (fanout subs).1 = subs.map offerDelivered ∧
    (fanout subs).2 ≤ gracePeriodMs * subs.length ∧
    (∀ b ∈ subs, offerTime b ≤ gracePeriodMs) ∧
    (∀ b ∈ subs, (∀ t, b = some t → gracePeriodMs ≤ t) →
      offerDelivered b = false) := by
  refine ⟨?_, ?_, fun b _ => offerTime_le b, ?_⟩
  · induction subs with
    | nil => rfl
    | cons b rest ih => simp [fanout, ih]
  · induction subs with
    | nil => simp [fanout]
    | cons b rest ih =>
      have hb := offerTime_le b
      simp only [fanout, List.length_cons]
      calc offerTime b + (fanout rest).2
          ≤ gracePeriodMs + gracePeriodMs * rest.length := by omega
        _ = gracePeriodMs * (rest.length + 1) := by ring
  · intro b _ hb
    cases b with
    | none => rfl
    | some t =>
      have ht := hb t rfl
      simp only [offerDelivered, decide_eq_false_iff_not, not_lt]
      exact ht

/-- Witness for C6: a subscriber ready only after 200 ms never receives. -/
theorem fanout_bounded_witness : offerDelivered (some 200) = false :=
  (fanout_bounded [some 200]).2.2.2 (some 200) (List.mem_singleton_self _)
    (fun t ht => by cases ht; decide)

/-- C7: a JSON-serialization failure of an individual record is silently
dropped (no error, session continues); an output-sink write failure
terminates the session with that error propagated, and the handler's deferred
cleanup leaves the subscriber unsubscribed. -/
theorem writeEvent_error_policy {β ε : Type} (marshal : JSONMessage → Option β)
    (write : β → Except ε Unit) (ev : JSONMessage) (f : FilterArgs) :
    (marshal ev = none → writeEventEmit marshal write ev f = Except.ok false) ∧
    (∀ (b : β) (e : ε), shouldSuppress ev f = false → marshal ev = some b →
      write b = Except.error e →
      writeEventEmit marshal write ev f = Except.error e) ∧
    (∀ (e : ε) (subs : List Listener) (l : Listener)
      (body : FilterArgs → Except ε Unit × List (Option JSONMessage))
      (pf : FilterArgs), l ∉ subs → (body pf).1 = Except.error e →
      (getSession (Except.ok pf) subs l body).result = Except.error e ∧
      (getSession (Except.ok pf) subs l body).subsAfter = subs) := by
  refine ⟨?_, ?_, ?_⟩
  · intro hm
    unfold writeEventEmit
    rw [hm]
    split <;> rfl
  · intro b e hs hm hw
    simp [writeEventEmit, hs, hm, hw]
  · intro e subs l body pf hl hb
    refine ⟨hb, ?_⟩
    show (unsubscribe (subscribe subs l) l).remaining = subs
    rw [show subscribe subs l = subs ++ [l] from rfl,
      unsubscribe_append_fresh subs l hl]

/-- Witness for C7: a record whose serialization fails is dropped without an
error. -/
theorem writeEvent_error_policy_witness :
    writeEventEmit (fun _ => (none : Option Unit))
      (fun _ => (Except.ok () : Except Unit Unit)) ⟨"a", "b", "c", 0⟩
      ⟨[], [], []⟩ = Except.ok false :=
  (writeEvent_error_policy _ _ _ _).1 rfl

/-- Counterexample to C8: the claim says a container filter list containing
only empty strings suppresses every stored record, but a record whose subject
identifier is itself the empty string is matched by the empty filter value
and is not suppressed. -/
theorem empty_container_filter_cex :
    shouldSuppress ⟨"start", "", "img", 5⟩ ⟨[], [], [""]⟩ = false := by decide

/-- C8 (amended): container filter values are resolved through the external
lookup collaborator and an unresolvable name becomes the empty string; the
empty string matches only records whose identifier is empty or starts with
the ':' separator, so a container filter of only empty strings suppresses
every record whose identifier has a non-empty segment before the first
':'. -/
theorem container_filter_resolution (resolve : String → Option String)
    (name : String) (f : FilterArgs) (ev : JSONMessage) :
    (resolve name = none → GetContainerId resolve name = "") ∧
    (resolveContainerFilters resolve f).container =
      f.container.map (GetContainerId resolve) ∧
    (beforeSep ev.ID ≠ "" → shouldSuppress ev ⟨[], [], [""]⟩ = true) := by
  refine ⟨?_, rfl, ?_⟩
  · intro h
    unfold GetContainerId
    rw [h]
  · intro h
    have hid : ev.ID ≠ "" := by
      intro heq
      apply h
      rw [heq]
      rfl
    show (isFiltered ev.Status [] || isFiltered ev.From [] ||
      isFiltered ev.ID [""]) = true
    rw [isFiltered_nil, isFiltered_nil]
    simp only [Bool.false_or]
    rw [isFiltered_eq_true_iff]
    refine ⟨by simp, ?_⟩
    intro v hv
    rw [List.mem_singleton] at hv
    subst hv
    rintro (h1 | ⟨_, h3⟩)
    · exact hid h1
    · exact h h3

/-- Witness for C8 (amended): the empty-string filter value suppresses a
record with the ordinary identifier "abc". -/
theorem container_filter_resolution_witness :
    shouldSuppress ⟨"s", "abc", "i", 0⟩ ⟨[], [], [""]⟩ = true :=
  (container_filter_resolution (fun _ => none) "x" ⟨[], [], []⟩
    ⟨"s", "abc", "i", 0⟩).2.2 (by decide)

/-- C9: when the filter argument fails to parse, the session returns the
parse error before any session state is created: the registry (and its
count) is unchanged and nothing is written to the output sink. -/
theorem get_parse_error_clean {ε : Type} (e : ε) (subs : List Listener)
    (l : Listener)
    (body : FilterArgs → Except ε Unit × List (Option JSONMessage)) :
    (getSession (Except.error e) subs l body).result = Except.error e ∧
    (getSession (Except.error e) subs l body).subsAfter = subs ∧
    subscribersCount (getSession (Except.error e) subs l body).subsAfter =
      subscribersCount subs ∧
    (getSession (Except.error e) subs l body).written = [] :=
  ⟨rfl, rfl, rfl, rfl⟩

/-- C10: `Log` returns an error exactly when the argument count differs
from 3; in that case the bus state is untouched and nothing is spawned to
record or fan out; with exactly 3 arguments it returns success immediately,
spawning the asynchronous recording. -/
theorem log_arity_check (jobName : String) (args : List String)
    (st : List JSONMessage × List Listener) :
    ((LogJob jobName args st).1 =
        Except.error ("usage: " ++ jobName ++ " ACTION ID FROM") ↔
      args.length ≠ 3) ∧
    (args.length ≠ 3 →
      LogJob jobName args st =
        (Except.error ("usage: " ++ jobName ++ " ACTION ID FROM"), st, none)) ∧
    (args.length = 3 →
      LogJob jobName args st =
        (Except.ok (), st,
          some (args.getD 0 "", args.getD 1 "", args.getD 2 ""))) := by
  unfold LogJob
  by_cases h : args.length = 3
  · rw [if_neg (by simp [h])]
    refine ⟨⟨fun hc => by simp at hc, fun hc => absurd h hc⟩,
      fun hc => absurd h hc, fun _ => rfl⟩
  · rw [if_pos h]
    exact ⟨⟨fun _ => h, fun _ => rfl⟩, fun _ => rfl, fun hc => absurd hc h⟩

/-- Witness for C10: one argument yields the usage error with the state
untouched and nothing spawned. -/
theorem log_arity_check_witness :
    LogJob "log" ["create"] ([], []) =
      (Except.error ("usage: " ++ "log" ++ " ACTION ID FROM"), ([], []), none) :=
  (log_arity_check "log" ["create"] ([], [])).2.1 (by decide)

end Events
